import Mathlib

/-!
Verification of the buffered metrics collector of the etl-processor
repository, a shallow embedding of:
  - src/src/core/metrics/types.py   (Metric, MetricAggregate, MetricType)
  - src/src/core/metrcis/collector.py (AdvancedMetricsCollector)

Machine floats are embedded as an inductive FVal over exact rationals with
explicit NaN / +inf / -inf constructors and IEEE-style comparison and
arithmetic on those special values (exact rational arithmetic stands in for
finite-float arithmetic).  Fallible operations return an explicit outcome
next to the post-state, because the Python code mutates state before
re-raising.  Fields of the source that no claim touches (timestamps, tags,
description, source, unit, metadata, first_seen, last_seen, the
aggregates_count statistic, logging) are omitted; each omission is noted at
the definition it concerns.  The database and the background thread are
external to the process state: the database outcome of one bulk insert is
passed in as a boolean, and two ghost fields (db, persistCalls) record what
the store received.
-/

namespace ETLMetrics

/-- Embedding of a Python float (plus the ints that reach float()): a finite
value is an exact rational; NaN and the two infinities are explicit. -/
inductive FVal where
  | fin (q : ℚ)
  | nan
  | inf
  | neginf
deriving DecidableEq

/-- Python `<` on floats: any comparison with NaN is False; -inf is below
everything else; +inf is above everything else. -/
def FVal.flt : FVal → FVal → Bool
  | .nan, _ => false
  | _, .nan => false
  | .neginf, .neginf => false
  | .neginf, _ => true
  | _, .neginf => false
  | .inf, _ => false
  | .fin _, .inf => true
  | .fin a, .fin b => decide (a < b)

/-- Python `<=` on floats: any comparison with NaN is False. -/
def FVal.fle : FVal → FVal → Bool
  | .nan, _ => false
  | _, .nan => false
  | .neginf, _ => true
  | _, .inf => true
  | .inf, _ => false
  | .fin _, .neginf => false
  | .fin a, .fin b => decide (a ≤ b)

/-- Python `+` on floats: NaN propagates; inf + (-inf) is NaN. -/
def FVal.fadd : FVal → FVal → FVal
  | .nan, _ => .nan
  | _, .nan => .nan
  | .inf, .neginf => .nan
  | .neginf, .inf => .nan
  | .inf, _ => .inf
  | _, .inf => .inf
  | .neginf, _ => .neginf
  | _, .neginf => .neginf
  | .fin a, .fin b => .fin (a + b)

/-- Python `x / n` for a float x and a positive int n (the only divisions the
collector performs are `self.sum / self.count` with count >= 1; the n = 0
case is unreachable there, rational division then yields fin 0). -/
def FVal.fdivNat : FVal → Nat → FVal
  | .nan, _ => .nan
  | .inf, _ => .inf
  | .neginf, _ => .neginf
  | .fin a, n => .fin (a / (n : ℚ))

/-- Python `==` on floats: NaN is equal to nothing, including itself. -/
def FVal.feq : FVal → FVal → Bool
  | .nan, _ => false
  | _, .nan => false
  | .fin a, .fin b => decide (a = b)
  | .inf, .inf => true
  | .neginf, .neginf => true
  | _, _ => false

/-- True exactly on finite values. -/
def FVal.isFin : FVal → Bool
  | .fin _ => true
  | _ => false

/-- Embedding of the value argument of record_metric as received from
Python callers: ints, finite floats, the non-finite floats, or something
that is not an int/float instance at all (e.g. a string). -/
inductive PyValue where
  | int (n : ℤ)
  | finite (q : ℚ)
  | nan
  | inf
  | neginf
  | nonNumeric (s : String)
deriving DecidableEq

/-- `isinstance(value, (int, float))` — collector.py line 316.  NaN and the
infinities are float instances, so they count as numeric. -/
def PyValue.isNumeric : PyValue → Bool
  | .int _ => true
  | .finite _ => true
  | .nan => true
  | .inf => true
  | .neginf => true
  | .nonNumeric _ => false

/-- The spec's notion of a finite number (used only to state claims, never
inside the embedded code). -/
def PyValue.isFiniteNumber : PyValue → Bool
  | .int _ => true
  | .finite _ => true
  | _ => false

/-- `float(value)` — collector.py line 325.  Only reached after the
isinstance check, so the nonNumeric arm is unreachable there. -/
def PyValue.toFloat : PyValue → FVal
  | .int n => .fin (n : ℚ)
  | .finite q => .fin q
  | .nan => .nan
  | .inf => .inf
  | .neginf => .neginf
  | .nonNumeric _ => .nan

/-- Python `str.strip()` on a list of characters: drop leading and trailing
whitespace. -/
def pyStrip (s : List Char) : List Char :=
  ((s.dropWhile Char.isWhitespace).reverse.dropWhile Char.isWhitespace).reverse

/-- MetricType — types.py lines 11-18.  The enum value is the lowercase
string. -/
inductive MetricType where
  | counter
  | gauge
  | histogram
  | timer
  | summary
  | rate
deriving DecidableEq

/-- `.value` of the enum member — types.py lines 13-18. -/
def MetricType.value : MetricType → List Char
  | counter => "counter".data
  | gauge => "gauge".data
  | histogram => "histogram".data
  | timer => "timer".data
  | summary => "summary".data
  | rate => "rate".data

/-- Metric — types.py lines 35-47, restricted to the fields the claims
depend on (name, value, metric_type).  timestamp, tags, level, description,
source, unit and metadata have no effect on buffering, flushing or
aggregation keys and are omitted. -/
structure Metric where
  name : List Char
  value : FVal
  metric_type : MetricType
deriving DecidableEq

/-- MetricAggregate — types.py lines 65-77.  min starts at float('inf') and
max at float('-inf'), exactly as in the source; first_seen/last_seen are
datetime bookkeeping not touched by any claim and are omitted. -/
structure MetricAggregate where
  name : List Char
  metric_type : MetricType
  count : Nat := 0
  sum : FVal := .fin 0
  min : FVal := .inf
  max : FVal := .neginf
  avg : FVal := .fin 0
  last_value : Option FVal := none
deriving DecidableEq

/-- MetricAggregate.update — types.py lines 79-94: count += 1,
sum += value, conditional min/max updates, avg = sum / count,
last_value = value. -/
def MetricAggregate.update (a : MetricAggregate) (m : Metric) : MetricAggregate :=
  let count := a.count + 1
  let sum := a.sum.fadd m.value
  let mn := if m.value.flt a.min then m.value else a.min
  let mx := if a.max.flt m.value then m.value else a.max
  { a with
    count := count
    sum := sum
    min := mn
    max := mx
    avg := sum.fdivNat count
    last_value := some m.value }

/-- `MetricAggregate(name=..., metric_type=...)` — the fresh aggregate built
at collector.py lines 403-406; every other field takes its dataclass
default. -/
def initAgg (name : List Char) (metric_type : MetricType) : MetricAggregate :=
  { name := name, metric_type := metric_type }

/-- The in-memory aggregates dict, as an insertion-ordered association
list. -/
abbrev AggMap := List (List Char × MetricAggregate)

/-- Dict lookup on the aggregates map. -/
def aggFind : AggMap → List Char → Option MetricAggregate
  | [], _ => none
  | (k, a) :: rest, key => if k = key then some a else aggFind rest key

/-- Dict item mutation: apply MetricAggregate.update to the entry at the
given key, leaving other entries alone. -/
def updateEntry : AggMap → List Char → Metric → AggMap
  | [], _, _ => []
  | (k, a) :: rest, key, m =>
    if k = key then (k, a.update m) :: rest else (k, a) :: updateEntry rest key m

/-- `f"{metric.name}:{metric.metric_type.value}"` — collector.py
line 399. -/
def aggKey (m : Metric) : List Char := m.name ++ ':' :: m.metric_type.value

/-- _update_aggregate — collector.py lines 397-409: create the entry on
first sight (dict insertion appends), then update it in place.  The
aggregates_count statistic it also refreshes is not referenced by any
claim and is omitted. -/
def update_aggregate (aggs : AggMap) (m : Metric) : AggMap :=
  let key := aggKey m
  let aggs1 :=
    if (aggFind aggs key).isSome then aggs
    else aggs ++ [(key, initAgg m.name m.metric_type)]
  updateEntry aggs1 key m

/-- The statistics dict — collector.py lines 80-89, restricted to the
counters the claims reference. -/
structure CollectorStats where
  total_metrics : Nat := 0
  total_inserted : Nat := 0
  total_errors : Nat := 0
  buffer_overflow : Nat := 0
  flush_count : Nat := 0
deriving DecidableEq

/-- The collector state — collector.py __init__ lines 66-106, restricted to
the configuration and mutable state the claims touch.  db and persistCalls
are ghost fields standing for the external store: db is the list of rows the
metrics table received, persistCalls counts invocations of
_bulk_insert_metrics. -/
structure CollectorState where
  max_buffer_size : Nat
  enable_aggregation : Bool := true
  metrics_buffer : List Metric := []
  stats : CollectorStats := {}
  aggregates : AggMap := []
  running : Bool := false
  db : List Metric := []
  persistCalls : Nat := 0
deriving DecidableEq

/-- A freshly constructed collector (empty buffer, zeroed stats, no
aggregates, background thread not running). -/
def initState (max_buffer_size : Nat) (enable_aggregation : Bool) : CollectorState :=
  { max_buffer_size := max_buffer_size, enable_aggregation := enable_aggregation }

/-- The `Metric(...)` construction — collector.py lines 323-334: the stored
name is name.strip(), the stored value is float(value). -/
def mkMetric (name : List Char) (value : PyValue) (metric_type : MetricType) : Metric :=
  { name := pyStrip name, value := value.toFloat, metric_type := metric_type }

/-- flush — collector.py lines 411-469, with _bulk_insert_metrics
(lines 471-516) inlined as the persist step whose success is the external
parameter persistOk.  Returns the post-state next to the Python outcome:
ok inserted_count, or error () for the re-raised MetricsError.
Branches in source order: empty-and-not-forced early return (line 423),
atomic drain (copy + clear, lines 426-427), empty-batch early return
(line 429), bulk insert; on success total_inserted and flush_count are
updated (lines 442-444) and the batch is appended to the store; on failure
the batch is extended back onto the buffer (line 466), total_errors is
incremented (line 468) and the error is re-raised (line 469). -/
def flush (st : CollectorState) (force : Bool) (persistOk : Bool) :
    CollectorState × Except Unit Nat :=
  if st.metrics_buffer = [] ∧ force = false then (st, .ok 0)
  else
    let metrics_to_flush := st.metrics_buffer
    let st1 : CollectorState := { st with metrics_buffer := [] }
    if metrics_to_flush = [] then (st1, .ok 0)
    else
      let st2 : CollectorState := { st1 with persistCalls := st1.persistCalls + 1 }
      if persistOk then
        let inserted := metrics_to_flush.length
        ({ st2 with
            db := st2.db ++ metrics_to_flush
            stats := { st2.stats with
              total_inserted := st2.stats.total_inserted + inserted
              flush_count := st2.stats.flush_count + 1 } },
          .ok inserted)
      else
        ({ st2 with
            metrics_buffer := st2.metrics_buffer ++ metrics_to_flush
            stats := { st2.stats with total_errors := st2.stats.total_errors + 1 } },
          .error ())

/-- The three ways a record_metric call can return: normally, with the
MetricsError raised on input validation (lines 316-320), or with the
MetricsError raised when the overflow-triggered forced flush fails. -/
inductive RecordOutcome where
  | ok
  | errInvalid
  | errFlushFail
deriving DecidableEq

/-- The buffer append plus bookkeeping of a successful record —
collector.py lines 348-353: append the metric, bump total_metrics, and
update the in-memory aggregates when aggregation is enabled. -/
def appendMetric (st : CollectorState) (m : Metric) : CollectorState :=
  { st with
    metrics_buffer := st.metrics_buffer ++ [m]
    stats := { st.stats with total_metrics := st.stats.total_metrics + 1 }
    aggregates :=
      if st.enable_aggregation then update_aggregate st.aggregates m else st.aggregates }

/-- record_metric — collector.py lines 286-378.  In source order: the
isinstance check (line 316), the empty/blank name check (line 319), the
Metric construction (lines 323-334), the overflow check against
max_buffer_size with buffer_overflow bump and forced flush (lines 339-346),
then append/stats/aggregates (lines 348-353).  The except handler
(lines 369-378) increments total_errors once and re-raises as MetricsError,
for both validation failures and a failing forced flush.  The
notify of the background thread (lines 356-358) and the level-based logging
(lines 361-367) have no effect on the modeled state. -/
def record_metric (st : CollectorState) (name : List Char) (value : PyValue)
    (metric_type : MetricType) (persistOk : Bool) : CollectorState × RecordOutcome :=
  if value.isNumeric = false then
    ({ st with stats := { st.stats with total_errors := st.stats.total_errors + 1 } },
      .errInvalid)
  else if name = [] ∨ pyStrip name = [] then
    ({ st with stats := { st.stats with total_errors := st.stats.total_errors + 1 } },
      .errInvalid)
  else if st.max_buffer_size ≤ st.metrics_buffer.length then
    match flush { st with stats := { st.stats with
        buffer_overflow := st.stats.buffer_overflow + 1 } } true persistOk with
    | (st2, .error _) =>
      ({ st2 with stats := { st2.stats with total_errors := st2.stats.total_errors + 1 } },
        .errFlushFail)
    | (st2, .ok _) => (appendMetric st2 (mkMetric name value metric_type), .ok)
  else
    (appendMetric st (mkMetric name value metric_type), .ok)

/-- start_background_flush — collector.py lines 216-228.  The thread
creation has no effect on the modeled sequential state beyond the running
flag. -/
def start_background_flush (st : CollectorState) : CollectorState :=
  { st with running := true }

/-- stop_background_flush — collector.py lines 230-237: sets running to
False, notifies the condition and joins the thread with a timeout.  Neither
the notify nor the join touches the buffer, the aggregates or the store; the
function performs no flush of its own. -/
def stop_background_flush (st : CollectorState) : CollectorState :=
  { st with running := false }

/-- close / __exit__ — collector.py lines 713-737: a forced flush whose
error is swallowed (lines 721-724), then stop_background_flush. -/
def close (st : CollectorState) (persistOk : Bool) : CollectorState :=
  stop_background_flush (flush st true persistOk).1

/-- The structured mapping returned by health_check.  The healthy branch
fills the optional fields; the unhealthy branch returns status, error,
database and buffer_size only, exactly as the two dict literals at
collector.py lines 681-690 and 693-698 do. -/
structure HealthReport where
  status : List Char
  database : List Char
  buffer_size : Nat
  error : Option String := none
  buffer_health : Option (List Char) := none
  background_thread : Option (List Char) := none
  total_inserted : Option Nat := none
  total_errors : Option Nat := none
deriving DecidableEq

/-- health_check — collector.py lines 669-698.  The connectivity probe
(SELECT 1 + fetch) is the external parameter: ok v is the fetched value,
error e is any exception raised while probing.  The buffer-occupancy test
`len < max_buffer_size * 0.8` is embedded exactly over rationals. -/
def health_check (st : CollectorState) (probe : Except String Int) : HealthReport :=
  match probe with
  | .ok v =>
    let db_ok := v = 1
    let buffer_health :=
      decide ((st.metrics_buffer.length : ℚ) < (st.max_buffer_size : ℚ) * (8 / 10 : ℚ))
    { status := "healthy".data
      database := if db_ok then "connected".data else "disconnected".data
      buffer_size := st.metrics_buffer.length
      buffer_health := some (if buffer_health then "ok".data else "warning".data)
      background_thread := some (if st.running then "running".data else "stopped".data)
      total_inserted := some st.stats.total_inserted
      total_errors := some st.stats.total_errors }
  | .error e =>
    { status := "unhealthy".data
      error := some e
      database := "disconnected".data
      buffer_size := st.metrics_buffer.length }

/-- One external stimulus applied to the collector: a record_metric call or
a direct flush call, each carrying the outcome the store would give its
persist step. -/
inductive Event where
  | record (name : List Char) (value : PyValue) (metric_type : MetricType) (persistOk : Bool)
  | flushEv (force : Bool) (persistOk : Bool)

/-- Apply one event to the collector state. -/
def step (st : CollectorState) : Event → CollectorState
  | .record n v t p => (record_metric st n v t p).1
  | .flushEv f p => (flush st f p).1

/-- Run a sequence of events. -/
def run (st : CollectorState) : List Event → CollectorState
  | [] => st
  | e :: es => run (step st e) es

/-- The metrics accepted along a trace: the Metric objects created by the
record_metric calls that return normally, in order. -/
def acceptedOf : CollectorState → List Event → List Metric
  | _, [] => []
  | st, e :: es =>
    (match e with
     | .record n v t p =>
       if (record_metric st n v t p).2 = RecordOutcome.ok then [mkMetric n v t] else []
     | .flushEv _ _ => []) ++ acceptedOf (step st e) es

/-!
Interleaving model of concurrent flushes, for the at-most-one-flush claim.
In collector.py, flush's drain (copy + clear, lines 422-430) runs under
buffer_lock, but the persist step (_bulk_insert_metrics, line 439) and the
failure re-extend (lines 464-466) run after the lock is released, so several
flush calls can be between their drain and their persist at the same time.
The model gives every successfully recorded metric a fresh identifier (its
object identity) and makes each lock-protected region one atomic step:
append, drain, and the completion (success or failure) of one in-flight
persist.
-/

/-- The global state of the buffer/flush subsystem under concurrency:
the buffer, the drained batches whose persist step has not finished yet
(one per flush call in flight), the batches the store accepted, and the
next fresh metric identity. -/
structure FlushSys where
  buffer : List Nat := []
  inflight : List (List Nat) := []
  persisted : List (List Nat) := []
  nextId : Nat := 0
deriving DecidableEq

/-- One atomic step of the concurrent model: a producer appends a fresh
metric; a flush call drains the buffer (empty drains return without an
in-flight batch, line 423/429); the persist step of the i-th in-flight
flush completes successfully (commit, line 507) or fails and re-extends
the buffer (line 466). -/
inductive FEvent where
  | record
  | drain
  | persistDone (i : Nat)
  | persistFail (i : Nat)

/-- Apply one atomic step. -/
def fstep (s : FlushSys) : FEvent → FlushSys
  | .record =>
    { s with buffer := s.buffer ++ [s.nextId], nextId := s.nextId + 1 }
  | .drain =>
    if s.buffer = [] then s
    else { s with buffer := [], inflight := s.inflight ++ [s.buffer] }
  | .persistDone i =>
    match s.inflight[i]? with
    | some b => { s with inflight := s.inflight.eraseIdx i, persisted := s.persisted ++ [b] }
    | none => s
  | .persistFail i =>
    match s.inflight[i]? with
    | some b => { s with inflight := s.inflight.eraseIdx i, buffer := s.buffer ++ b }
    | none => s

/-- Run a sequence of atomic steps from a state. -/
def frun (s : FlushSys) : List FEvent → FlushSys
  | [] => s
  | e :: es => frun (fstep s e) es

/-- All metric identities currently anywhere in the subsystem. -/
def fAll (s : FlushSys) : List Nat :=
  s.buffer ++ s.inflight.flatten ++ s.persisted.flatten

/-- The no-duplication invariant of the concurrent model: every metric
identity occurs at most once across buffer, in-flight batches and persisted
batches, and all identities are below the freshness counter. -/
def FInv (s : FlushSys) : Prop :=
  (fAll s).Nodup ∧ ∀ x ∈ fAll s, x < s.nextId

/-- The cumulative per-key effect of the aggregates dict on one key: fold
MetricAggregate.update over the matching metrics, creating the aggregate
from the first matching metric when the key is not present yet (as
_update_aggregate does at collector.py lines 402-407). -/
def extendAgg : Option MetricAggregate → List Metric → Option MetricAggregate
  | o, [] => o
  | some a, m :: ms => extendAgg (some (a.update m)) ms
  | none, m :: ms =>
    extendAgg (some ((initAgg m.name m.metric_type).update m)) ms

/-- The relation between one aggregate and the list of values it has
absorbed, strengthened enough to be preserved by MetricAggregate.update:
count is the number of values, sum is finite, avg is sum divided by count,
min and max bound every absorbed value, last_value is the most recent one,
the untouched aggregate still carries its infinite sentinels, a touched one
has finite min and max, and every absorbed value is finite. -/
def AggState (vs : List FVal) (a : MetricAggregate) : Prop :=
  a.count = vs.length ∧
  (∃ q, a.sum = FVal.fin q) ∧
  a.avg = a.sum.fdivNat a.count ∧
  (∀ v ∈ vs, a.min.fle v = true ∧ v.fle a.max = true) ∧
  a.last_value = vs.getLast? ∧
  (vs = [] → a.min = FVal.inf ∧ a.max = FVal.neginf ∧ a.sum = FVal.fin 0) ∧
  (vs ≠ [] → (∃ q, a.min = FVal.fin q) ∧ (∃ q, a.max = FVal.fin q)) ∧
  (∀ v ∈ vs, v.isFin = true)

/-! ## Theorems -/

/-- C3: flush-failure atomicity.  For every flush call whose bulk-persist
step fails, the MetricsError is re-raised to the caller, every metric of
the drained batch is back in the buffer (the buffer is exactly its
pre-flush contents, so its size is restored), and total_inserted is
unchanged. -/
theorem flush_failure_atomic (st : CollectorState) (force : Bool)
    (h : st.metrics_buffer ≠ []) :
    (flush st force false).2 = Except.error () ∧
    (flush st force false).1.metrics_buffer = st.metrics_buffer ∧
    (flush st force false).1.stats.total_inserted = st.stats.total_inserted := by
  unfold flush
  simp [h]

/-- Witness for C3: a concrete one-metric buffer, failing persist. -/
theorem flush_failure_atomic_witness :
    ({ max_buffer_size := 10,
       metrics_buffer := [{ name := ("x").data, value := FVal.fin 1,
                            metric_type := MetricType.gauge }] } :
        CollectorState).metrics_buffer ≠ [] ∧
    ((flush { max_buffer_size := 10,
              metrics_buffer := [{ name := ("x").data, value := FVal.fin 1,
                                   metric_type := MetricType.gauge }] } false false).2 =
        Except.error () ∧
      (flush { max_buffer_size := 10,
               metrics_buffer := [{ name := ("x").data, value := FVal.fin 1,
                                    metric_type := MetricType.gauge }] } false false).1.metrics_buffer =
        ({ max_buffer_size := 10,
           metrics_buffer := [{ name := ("x").data, value := FVal.fin 1,
                                metric_type := MetricType.gauge }] } :
            CollectorState).metrics_buffer ∧
      (flush { max_buffer_size := 10,
               metrics_buffer := [{ name := ("x").data, value := FVal.fin 1,
                                    metric_type := MetricType.gauge }] } false false).1.stats.total_inserted =
        ({ max_buffer_size := 10,
           metrics_buffer := [{ name := ("x").data, value := FVal.fin 1,
                                metric_type := MetricType.gauge }] } :
            CollectorState).stats.total_inserted) :=
  ⟨by decide, flush_failure_atomic _ false (by decide)⟩

/-- C8: an empty buffer with force = false makes flush return 0 and leave
the whole state untouched — in particular the ghost db and persist-call
counter, so the bulk persister is not invoked; and for every flush whose
persist step succeeds, the returned inserted count is the length of the
drained batch (the entire buffer). -/
theorem flush_empty_noop_and_count (st : CollectorState) (persistOk : Bool)
    (force : Bool) :
    (st.metrics_buffer = [] → flush st false persistOk = (st, Except.ok 0)) ∧
    (flush st force true).2 = Except.ok st.metrics_buffer.length := by
  constructor
  · intro h
    unfold flush
    simp [h]
  · unfold flush
    by_cases h : st.metrics_buffer = []
    · by_cases hf : force = false <;> simp [h, hf]
    · simp [h]

/-- Witness for C8: the freshly constructed collector has an empty buffer;
flush returns 0, the state is untouched, and a successful flush reports the
buffer length. -/
theorem flush_empty_noop_and_count_witness :
    (initState 10 true).metrics_buffer = [] ∧
    ((initState 10 true).metrics_buffer = [] →
      flush (initState 10 true) false true = (initState 10 true, Except.ok 0)) ∧
    (flush (initState 10 true) false true).2 =
      Except.ok (initState 10 true).metrics_buffer.length :=
  ⟨by decide, (flush_empty_noop_and_count (initState 10 true) true false).1,
    (flush_empty_noop_and_count (initState 10 true) true false).2⟩

/-- C9: health_check is a total function of the collector state and the
probe outcome — it returns a structured report rather than propagating the
probe's exception — and in every case the report carries a status field
(healthy or unhealthy) and the buffer size. -/
theorem health_check_never_raises (st : CollectorState)
    (probe : Except String Int) :
    (health_check st probe).buffer_size = st.metrics_buffer.length ∧
    ((health_check st probe).status = ("healthy").data ∨
      (health_check st probe).status = ("unhealthy").data) ∧
    (∀ e, probe = Except.error e →
      (health_check st probe).status = ("unhealthy").data ∧
      (health_check st probe).error = some e) := by
  cases probe <;> simp [health_check]

/-- Witness for C9: a failing connectivity probe on a concrete state still
yields a structured unhealthy report with the buffer size. -/
theorem health_check_never_raises_witness :
    (health_check (initState 10 true) (Except.error ("db down"))).buffer_size =
      (initState 10 true).metrics_buffer.length ∧
    ((health_check (initState 10 true) (Except.error ("db down"))).status =
        ("healthy").data ∨
      (health_check (initState 10 true) (Except.error ("db down"))).status =
        ("unhealthy").data) ∧
    (health_check (initState 10 true) (Except.error ("db down"))).status =
      ("unhealthy").data :=
  ⟨(health_check_never_raises (initState 10 true) (Except.error ("db down"))).1,
    (health_check_never_raises (initState 10 true) (Except.error ("db down"))).2.1,
    ((health_check_never_raises (initState 10 true) (Except.error ("db down"))).2.2
      ("db down") rfl).1⟩

/-- Counterexample to C5: stop_background_flush performs no flush.  Starting
from a fresh collector (background thread never started), record one metric
and call stop_background_flush: the call returns with the metric still in
the buffer, nothing persisted, and the bulk persister never invoked — so a
buffered metric does remain unpersisted when the stop operation returns,
contradicting the claim's final-forced-flush clause. -/
theorem stop_background_flush_counterexample :
    (stop_background_flush
        (record_metric (initState 10 true) (("x").data) (PyValue.int 1)
          MetricType.gauge true).1).metrics_buffer.length = 1 ∧
    (stop_background_flush
        (record_metric (initState 10 true) (("x").data) (PyValue.int 1)
          MetricType.gauge true).1).db = [] ∧
    (stop_background_flush
        (record_metric (initState 10 true) (("x").data) (PyValue.int 1)
          MetricType.gauge true).1).persistCalls = 0 ∧
    (record_metric (initState 10 true) (("x").data) (PyValue.int 1)
        MetricType.gauge true).2 = RecordOutcome.ok := by
  decide

/-- C5 as amended: stop_background_flush is idempotent and leaves the
collector stopped, and it is safe when the background thread was never
started; but it performs no flush of its own (buffer, persisted rows and
persist-call count are untouched).  The final forced flush on shutdown is
instead performed by close / __exit__, which flushes with force before
stopping, leaving the buffer empty when the persist succeeds. -/
theorem stop_background_flush_amended (st : CollectorState) :
    stop_background_flush (stop_background_flush st) = stop_background_flush st ∧
    (stop_background_flush st).running = false ∧
    (stop_background_flush st).metrics_buffer = st.metrics_buffer ∧
    (stop_background_flush st).db = st.db ∧
    (stop_background_flush st).persistCalls = st.persistCalls ∧
    (close st true).metrics_buffer = [] := by
  refine ⟨rfl, rfl, rfl, rfl, rfl, ?_⟩
  unfold close stop_background_flush flush
  by_cases h : st.metrics_buffer = [] <;> simp [h]

/-- Counterexample to C4: with max_buffer_size = 1 the triggering
record_metric call does invoke the forced flush (buffer_overflow is
bumped and the first metric is persisted), yet the buffer size observed
after the call returns is 1, which is not strictly less than
max_buffer_size. -/
theorem overflow_backpressure_counterexample :
    (record_metric
        (record_metric (initState 1 true) (("x").data) (PyValue.int 1)
          MetricType.gauge true).1
        (("y").data) (PyValue.int 2) MetricType.gauge true).2 = RecordOutcome.ok ∧
    (record_metric
        (record_metric (initState 1 true) (("x").data) (PyValue.int 1)
          MetricType.gauge true).1
        (("y").data) (PyValue.int 2) MetricType.gauge true).1.stats.buffer_overflow = 1 ∧
    (record_metric
        (record_metric (initState 1 true) (("x").data) (PyValue.int 1)
          MetricType.gauge true).1
        (("y").data) (PyValue.int 2) MetricType.gauge true).1.db.length = 1 ∧
    (record_metric
        (record_metric (initState 1 true) (("x").data) (PyValue.int 1)
          MetricType.gauge true).1
        (("y").data) (PyValue.int 2) MetricType.gauge true).1.metrics_buffer.length = 1 ∧
    ¬((record_metric
        (record_metric (initState 1 true) (("x").data) (PyValue.int 1)
          MetricType.gauge true).1
        (("y").data) (PyValue.int 2) MetricType.gauge true).1.metrics_buffer.length <
      (initState 1 true).max_buffer_size) := by
  decide

/-- C4 as amended: a valid record_metric call that finds the buffer at or
above max_buffer_size bumps buffer_overflow, synchronously flushes the
whole pre-call buffer into the store before returning (persist assumed
successful), and returns with the buffer holding exactly the one new
metric; hence the resulting buffer size is strictly below max_buffer_size
whenever max_buffer_size is at least 2 (for max_buffer_size = 1 the size
equals the cap instead, as the counterexample shows). -/
theorem overflow_backpressure_amended (st : CollectorState) (name : List Char)
    (value : PyValue) (t : MetricType)
    (hv : value.isNumeric = true) (hn : ¬(name = [] ∨ pyStrip name = []))
    (hover : st.max_buffer_size ≤ st.metrics_buffer.length) :
    (record_metric st name value t true).2 = RecordOutcome.ok ∧
    (record_metric st name value t true).1.metrics_buffer = [mkMetric name value t] ∧
    (record_metric st name value t true).1.db = st.db ++ st.metrics_buffer ∧
    (record_metric st name value t true).1.stats.buffer_overflow =
      st.stats.buffer_overflow + 1 ∧
    (2 ≤ st.max_buffer_size →
      (record_metric st name value t true).1.metrics_buffer.length <
        st.max_buffer_size) := by
  unfold record_metric
  rw [hv]
  simp only [Bool.true_eq_false, if_false, hn, if_neg, not_false_iff, if_pos hover]
  unfold flush
  by_cases h : st.metrics_buffer = []
  · simp [h, appendMetric]
    omega
  · simp [h, appendMetric]
    omega

/-- Witness for C4's amended theorem: a collector with max_buffer_size = 2
whose buffer already holds two metrics; the triggering call flushes both
and returns with a buffer of size 1 < 2. -/
theorem overflow_backpressure_amended_witness :
    (PyValue.int 3).isNumeric = true ∧
    ¬((("z").data) = [] ∨ pyStrip (("z").data) = []) ∧
    (run (initState 2 true)
        [Event.record (("a").data) (PyValue.int 1) MetricType.counter true,
         Event.record (("b").data) (PyValue.int 2) MetricType.counter true]).max_buffer_size ≤
      (run (initState 2 true)
        [Event.record (("a").data) (PyValue.int 1) MetricType.counter true,
         Event.record (("b").data) (PyValue.int 2) MetricType.counter true]).metrics_buffer.length ∧
    (record_metric
        (run (initState 2 true)
          [Event.record (("a").data) (PyValue.int 1) MetricType.counter true,
           Event.record (("b").data) (PyValue.int 2) MetricType.counter true])
        (("z").data) (PyValue.int 3) MetricType.gauge true).2 = RecordOutcome.ok ∧
    (2 ≤ (run (initState 2 true)
        [Event.record (("a").data) (PyValue.int 1) MetricType.counter true,
         Event.record (("b").data) (PyValue.int 2) MetricType.counter true]).max_buffer_size →
      (record_metric
        (run (initState 2 true)
          [Event.record (("a").data) (PyValue.int 1) MetricType.counter true,
           Event.record (("b").data) (PyValue.int 2) MetricType.counter true])
        (("z").data) (PyValue.int 3) MetricType.gauge true).1.metrics_buffer.length <
      (run (initState 2 true)
        [Event.record (("a").data) (PyValue.int 1) MetricType.counter true,
         Event.record (("b").data) (PyValue.int 2) MetricType.counter true]).max_buffer_size) :=
  ⟨by decide, by decide, by decide,
    (overflow_backpressure_amended _ _ _ _ (by decide) (by decide) (by decide)).1,
    (overflow_backpressure_amended _ _ _ _ (by decide) (by decide) (by decide)).2.2.2.2⟩

/-- Counterexample to C2: NaN is not a finite number, yet record_metric
accepts it — isinstance(value, (int, float)) is the only value check, so
the call returns normally and the NaN metric is buffered.  The claimed
equivalence between rejection and non-finite-or-blank input is therefore
false. -/
theorem record_validation_counterexample :
    PyValue.isFiniteNumber PyValue.nan = false ∧
    (record_metric (initState 10 true) (("x").data) PyValue.nan
        MetricType.gauge true).2 = RecordOutcome.ok ∧
    (record_metric (initState 10 true) (("x").data) PyValue.nan
        MetricType.gauge true).1.metrics_buffer.length = 1 := by
  decide

/-- C2 as amended: record_metric raises the input-validation MetricsError
exactly when the value is not an int/float instance or the name is
empty/blank (non-finite floats such as NaN and the infinities pass the
check and are buffered); a rejected call leaves the buffer, the aggregates
and the store untouched and increments total_errors by exactly one. -/
theorem record_validation_amended (st : CollectorState) (name : List Char)
    (value : PyValue) (t : MetricType) (persistOk : Bool) :
    ((record_metric st name value t persistOk).2 = RecordOutcome.errInvalid ↔
      (value.isNumeric = false ∨ pyStrip name = [])) ∧
    ((value.isNumeric = false ∨ pyStrip name = []) →
      (record_metric st name value t persistOk).1.metrics_buffer = st.metrics_buffer ∧
      (record_metric st name value t persistOk).1.aggregates = st.aggregates ∧
      (record_metric st name value t persistOk).1.db = st.db ∧
      (record_metric st name value t persistOk).1.stats.total_errors =
        st.stats.total_errors + 1) := by
  unfold record_metric
  by_cases hv : value.isNumeric = false
  · simp [hv]
  · simp only [hv, if_false]
    by_cases hn : name = [] ∨ pyStrip name = []
    · have hstrip : pyStrip name = [] := by
        rcases hn with hn | hn
        · subst hn; rfl
        · exact hn
      simp [hn, hstrip, hv]
    · have hstrip : ¬pyStrip name = [] := fun h => hn (Or.inr h)
      have hname : ¬name = [] := fun h => hn (Or.inl h)
      simp only [hn, if_false, hv, hstrip, false_or, iff_false, or_self,
        false_implies, and_true]
      by_cases ho : st.max_buffer_size ≤ st.metrics_buffer.length
      · simp only [if_pos ho]
        rcases hE : flush { st with stats := { st.stats with
            buffer_overflow := st.stats.buffer_overflow + 1 } } true persistOk with ⟨st2, r⟩
        cases r <;> simp [hname]
      · simp [ho, hname]

/-- Witness for C2's amended theorem: a blank name is rejected on a
concrete state, with buffer/aggregates/store untouched and total_errors
bumped once. -/
theorem record_validation_amended_witness :
    ((record_metric (initState 10 true) ((" ").data) (PyValue.int 1)
        MetricType.gauge true).2 = RecordOutcome.errInvalid ↔
      ((PyValue.int 1).isNumeric = false ∨ pyStrip ((" ").data) = [])) ∧
    (((PyValue.int 1).isNumeric = false ∨ pyStrip ((" ").data) = []) →
      (record_metric (initState 10 true) ((" ").data) (PyValue.int 1)
          MetricType.gauge true).1.metrics_buffer = (initState 10 true).metrics_buffer ∧
      (record_metric (initState 10 true) ((" ").data) (PyValue.int 1)
          MetricType.gauge true).1.aggregates = (initState 10 true).aggregates ∧
      (record_metric (initState 10 true) ((" ").data) (PyValue.int 1)
          MetricType.gauge true).1.db = (initState 10 true).db ∧
      (record_metric (initState 10 true) ((" ").data) (PyValue.int 1)
          MetricType.gauge true).1.stats.total_errors =
        (initState 10 true).stats.total_errors + 1) :=
  record_validation_amended (initState 10 true) ((" ").data) (PyValue.int 1)
    MetricType.gauge true

/-- Helper: one flush call, whatever its force flag and persist outcome,
conserves the multiset of metrics split between store and buffer — the
drained batch either all lands in the db or is extended back onto the
buffer. -/
theorem flush_db_buffer (st : CollectorState) (f p : Bool) :
    (flush st f p).1.db ++ (flush st f p).1.metrics_buffer =
      st.db ++ st.metrics_buffer := by
  unfold flush
  by_cases h : st.metrics_buffer = []
  · by_cases hf : f = false <;> simp [h, hf]
  · by_cases hp : p <;> simp [h, hp]

/-- Helper: one record_metric call conserves store-plus-buffer, extended by
the created metric exactly when the call returns normally. -/
theorem record_db_buffer (st : CollectorState) (n : List Char) (v : PyValue)
    (t : MetricType) (p : Bool) :
    (record_metric st n v t p).1.db ++ (record_metric st n v t p).1.metrics_buffer =
      st.db ++ st.metrics_buffer ++
        (if (record_metric st n v t p).2 = RecordOutcome.ok then [mkMetric n v t]
          else []) := by
  unfold record_metric
  by_cases hv : v.isNumeric = false
  · simp [hv]
  · simp only [hv, if_false]
    by_cases hn : n = [] ∨ pyStrip n = []
    · simp [hn]
    · simp only [hn, if_false]
      by_cases ho : st.max_buffer_size ≤ st.metrics_buffer.length
      · simp only [if_pos ho]
        have hfl := flush_db_buffer { st with stats := { st.stats with
            buffer_overflow := st.stats.buffer_overflow + 1 } } true p
        rcases hE : flush { st with stats := { st.stats with
            buffer_overflow := st.stats.buffer_overflow + 1 } } true p with ⟨st2, r⟩
        rw [hE] at hfl
        cases r <;> simp_all [appendMetric, ← List.append_assoc]
      · simp [ho, appendMetric]

/-- Helper: one event conserves store-plus-buffer extended by what it
accepts. -/
theorem step_db_buffer (st : CollectorState) (e : Event) :
    (step st e).db ++ (step st e).metrics_buffer =
      st.db ++ st.metrics_buffer ++ acceptedOf st [e] := by
  cases e with
  | flushEv f p => simpa [step, acceptedOf] using flush_db_buffer st f p
  | record n v t p =>
    have h := record_db_buffer st n v t p
    by_cases hok : (record_metric st n v t p).2 = RecordOutcome.ok <;>
      simp_all [step, acceptedOf]

/-- Helper: running any event sequence conserves store-plus-buffer extended
by the accepted metrics of the trace. -/
theorem run_db_buffer (es : List Event) : ∀ st : CollectorState,
    (run st es).db ++ (run st es).metrics_buffer =
      st.db ++ st.metrics_buffer ++ acceptedOf st es := by
  induction es with
  | nil => intro st; simp [run, acceptedOf]
  | cons e es ih =>
    intro st
    have hstep := step_db_buffer st e
    have hacc : acceptedOf st (e :: es) =
        acceptedOf st [e] ++ acceptedOf (step st e) es := by
      cases e <;> simp [acceptedOf]
    simp only [run, hacc]
    rw [ih (step st e), hstep, List.append_assoc]

/-- C1: no-loss invariant.  Starting from a fresh collector, after any
sequence of record_metric and flush calls (flushes forced or not, each with
a succeeding or failing persist step), the store contents followed by the
buffer contents are exactly the accepted metrics, in order — no accepted
metric is lost or duplicated — and in particular (rows persisted) +
(metrics in buffer) equals the number of successful record_metric calls. -/
theorem no_loss (maxB : Nat) (enableAgg : Bool) (es : List Event) :
    (run (initState maxB enableAgg) es).db ++
        (run (initState maxB enableAgg) es).metrics_buffer =
      acceptedOf (initState maxB enableAgg) es ∧
    (run (initState maxB enableAgg) es).db.length +
        (run (initState maxB enableAgg) es).metrics_buffer.length =
      (acceptedOf (initState maxB enableAgg) es).length := by
  have h := run_db_buffer es (initState maxB enableAgg)
  have hinit : (initState maxB enableAgg).db = [] ∧
      (initState maxB enableAgg).metrics_buffer = [] := ⟨rfl, rfl⟩
  rw [hinit.1, hinit.2] at h
  simp only [List.nil_append] at h
  refine ⟨h, ?_⟩
  rw [← List.length_append, h]

/-- Helper: dropWhile is idempotent. -/
theorem dropWhile_dropWhile {α : Type} (p : α → Bool) (l : List α) :
    (l.dropWhile p).dropWhile p = l.dropWhile p := by
  induction l with
  | nil => rfl
  | cons a l ih =>
    by_cases h : p a <;> simp [List.dropWhile_cons, h, ih]

/-- Helper: the head of a dropWhile result fails the predicate. -/
theorem head?_dropWhile {α : Type} (p : α → Bool) (l : List α) (a : α)
    (h : (l.dropWhile p).head? = some a) : p a = false := by
  induction l with
  | nil => simp [List.dropWhile] at h
  | cons b l ih =>
    by_cases hb : p b
    · simp only [List.dropWhile_cons, if_pos hb] at h
      exact ih h
    · simp only [List.dropWhile_cons, if_neg hb, List.head?_cons,
        Option.some.injEq] at h
      subst h
      simpa using hb

/-- Helper: a nonempty dropWhile result keeps the last element of the
list. -/
theorem getLast?_dropWhile {α : Type} (p : α → Bool) (l : List α)
    (h : l.dropWhile p ≠ []) : (l.dropWhile p).getLast? = l.getLast? := by
  induction l with
  | nil => simp [List.dropWhile] at h
  | cons b l ih =>
    by_cases hb : p b
    · simp only [List.dropWhile_cons, if_pos hb] at h ⊢
      rw [ih h]
      have hl : l ≠ [] := by
        intro e
        subst e
        simp [List.dropWhile] at h
      rcases l with _ | ⟨c, l⟩
      · exact absurd rfl hl
      · rfl
    · simp [List.dropWhile_cons, if_neg hb]

/-- Helper: a list whose head fails the predicate is untouched by
dropWhile. -/
theorem dropWhile_eq_self {α : Type} (p : α → Bool) (l : List α)
    (h : ∀ a, l.head? = some a → p a = false) : l.dropWhile p = l := by
  rcases l with _ | ⟨a, l⟩
  · rfl
  · have := h a rfl
    simp [List.dropWhile_cons, this]

/-- Helper: Python strip is idempotent — a stripped name has no remaining
leading or trailing whitespace. -/
theorem pyStrip_idem (s : List Char) : pyStrip (pyStrip s) = pyStrip s := by
  unfold pyStrip
  set A := s.dropWhile Char.isWhitespace with hA
  set B := A.reverse.dropWhile Char.isWhitespace with hB
  by_cases hBe : B = []
  · simp [hBe, List.dropWhile]
  · have hhead : ∀ a, B.reverse.head? = some a → Char.isWhitespace a = false := by
      intro a ha
      rw [List.head?_reverse] at ha
      rw [hB, getLast?_dropWhile _ _ (by rw [← hB]; exact hBe)] at ha
      rw [List.getLast?_reverse] at ha
      exact head?_dropWhile Char.isWhitespace s a (by rw [← hA]; exact ha)
    rw [dropWhile_eq_self Char.isWhitespace B.reverse hhead]
    rw [List.reverse_reverse, hB, dropWhile_dropWhile]

/-- C10: the stored name is the stripped input.  Every record_metric call
that returns normally appends a metric whose name is pyStrip of the input
name; that stored name is a pyStrip fixed point (no leading or trailing
whitespace); and two calls whose names strip to the same characters produce
metrics with the same aggregate key name + colon + type. -/
theorem stored_name_stripped (st : CollectorState) (name name2 : List Char)
    (value : PyValue) (t : MetricType) (persistOk : Bool)
    (h : (record_metric st name value t persistOk).2 = RecordOutcome.ok) :
    (record_metric st name value t persistOk).1.metrics_buffer.getLast? =
      some (mkMetric name value t) ∧
    (mkMetric name value t).name = pyStrip name ∧
    pyStrip (mkMetric name value t).name = (mkMetric name value t).name ∧
    (pyStrip name2 = pyStrip name →
      aggKey (mkMetric name2 value t) = aggKey (mkMetric name value t)) := by
  refine ⟨?_, rfl, pyStrip_idem name, ?_⟩
  · revert h
    unfold record_metric
    split_ifs with h1 h2 h3
    · intro h; simp at h
    · intro h; simp at h
    · split
      · intro h; simp at h
      · intro _; simp [appendMetric, List.getLast?_concat]
    · intro _; simp [appendMetric, List.getLast?_concat]
  · intro h2
    unfold aggKey mkMetric
    simp [h2]

/-- Witness for C10: recording a name with surrounding whitespace stores
the stripped name, and a name differing only in surrounding whitespace
yields the same aggregate key. -/
theorem stored_name_stripped_witness :
    (record_metric (initState 10 true) ((" x ").data) (PyValue.int 1)
        MetricType.gauge true).2 = RecordOutcome.ok ∧
    (record_metric (initState 10 true) ((" x ").data) (PyValue.int 1)
        MetricType.gauge true).1.metrics_buffer.getLast? =
      some (mkMetric ((" x ").data) (PyValue.int 1) MetricType.gauge) ∧
    (mkMetric ((" x ").data) (PyValue.int 1) MetricType.gauge).name =
      pyStrip ((" x ").data) ∧
    (pyStrip (("x").data) = pyStrip ((" x ").data) →
      aggKey (mkMetric (("x").data) (PyValue.int 1) MetricType.gauge) =
        aggKey (mkMetric ((" x ").data) (PyValue.int 1) MetricType.gauge)) :=
  ⟨by decide,
    (stored_name_stripped (initState 10 true) ((" x ").data) (("x").data)
      (PyValue.int 1) MetricType.gauge true (by decide)).1,
    (stored_name_stripped (initState 10 true) ((" x ").data) (("x").data)
      (PyValue.int 1) MetricType.gauge true (by decide)).2.1,
    (stored_name_stripped (initState 10 true) ((" x ").data) (("x").data)
      (PyValue.int 1) MetricType.gauge true (by decide)).2.2.2⟩

/-- Helper: extracting the i-th element of a list is a permutation with the
rest. -/
theorem perm_getElem_eraseIdx {α : Type} (l : List α) (i : Nat) (b : α)
    (h : l[i]? = some b) : List.Perm l (b :: l.eraseIdx i) := by
  induction l generalizing i with
  | nil => simp at h
  | cons a l ih =>
    cases i with
    | zero =>
      simp only [List.getElem?_cons_zero, Option.some.injEq] at h
      subst h
      simp [List.eraseIdx]
    | succ i =>
      simp only [List.getElem?_cons_succ] at h
      exact ((ih i h).cons a).trans (List.Perm.swap b a (l.eraseIdx i))

/-- Helper: a state whose identity pool is a permutation of another
invariant-satisfying state's pool (same freshness counter) satisfies the
invariant too. -/
theorem FInv_of_perm (s t : FlushSys) (hn : t.nextId = s.nextId)
    (hp : List.Perm (fAll t) (fAll s)) (h : FInv s) : FInv t := by
  refine ⟨hp.symm.nodup h.1, ?_⟩
  intro x hx
  rw [hn]
  exact h.2 x (hp.mem_iff.mp hx)

/-- Helper: every atomic step of the concurrent flush model preserves the
no-duplication invariant. -/
theorem fstep_FInv (s : FlushSys) (e : FEvent) (h : FInv s) : FInv (fstep s e) := by
  cases e with
  | record =>
    have hperm : List.Perm (fAll (fstep s .record)) (fAll s ++ [s.nextId]) := by
      rw [← Multiset.coe_eq_coe]
      simp only [fstep, fAll, ← Multiset.coe_add]
      abel
    constructor
    · refine hperm.symm.nodup ?_
      have hnotin : s.nextId ∉ fAll s := fun hmem => by
        have := h.2 _ hmem
        omega
      simp [List.nodup_append, h.1, hnotin]
    · intro x hx
      have hx2 := hperm.mem_iff.mp hx
      have hnext : (fstep s .record).nextId = s.nextId + 1 := rfl
      rw [hnext]
      rcases List.mem_append.mp hx2 with hx3 | hx3
      · have := h.2 x hx3
        omega
      · simp at hx3
        omega
  | drain =>
    by_cases hb : s.buffer = []
    · simpa [fstep, hb] using h
    · have hstep : fstep s .drain =
          { s with buffer := [], inflight := s.inflight ++ [s.buffer] } := by
        simp [fstep, hb]
      refine FInv_of_perm _ _ (by rw [hstep]) ?_ h
      rw [hstep, ← Multiset.coe_eq_coe]
      simp only [fAll, List.flatten_append, List.flatten_cons, List.flatten_nil,
        List.nil_append, List.append_nil, ← Multiset.coe_add]
      abel
  | persistDone i =>
    rcases hE : s.inflight[i]? with _ | b
    · simpa [fstep, hE] using h
    · have hperm : List.Perm s.inflight.flatten (b ++ (s.inflight.eraseIdx i).flatten) :=
        (perm_getElem_eraseIdx s.inflight i b hE).flatten
      have hM : (↑s.inflight.flatten : Multiset Nat) =
          ↑b + ↑((s.inflight.eraseIdx i).flatten) :=
        (Multiset.coe_eq_coe.mpr hperm).trans (Multiset.coe_add b _).symm
      have hstep : fstep s (.persistDone i) =
          { s with inflight := s.inflight.eraseIdx i,
                   persisted := s.persisted ++ [b] } := by
        simp [fstep, hE]
      refine FInv_of_perm _ _ (by rw [hstep]) ?_ h
      rw [hstep, ← Multiset.coe_eq_coe]
      simp only [fAll, List.flatten_append, List.flatten_cons, List.flatten_nil,
        List.nil_append, List.append_nil, ← Multiset.coe_add]
      rw [hM]
      abel
  | persistFail i =>
    rcases hE : s.inflight[i]? with _ | b
    · simpa [fstep, hE] using h
    · have hperm : List.Perm s.inflight.flatten (b ++ (s.inflight.eraseIdx i).flatten) :=
        (perm_getElem_eraseIdx s.inflight i b hE).flatten
      have hM : (↑s.inflight.flatten : Multiset Nat) =
          ↑b + ↑((s.inflight.eraseIdx i).flatten) :=
        (Multiset.coe_eq_coe.mpr hperm).trans (Multiset.coe_add b _).symm
      have hstep : fstep s (.persistFail i) =
          { s with inflight := s.inflight.eraseIdx i,
                   buffer := s.buffer ++ b } := by
        simp [fstep, hE]
      refine FInv_of_perm _ _ (by rw [hstep]) ?_ h
      rw [hstep, ← Multiset.coe_eq_coe]
      simp only [fAll, List.flatten_append, List.flatten_cons, List.flatten_nil,
        List.nil_append, List.append_nil, ← Multiset.coe_add]
      rw [hM]
      abel

/-- Helper: the invariant holds after any step sequence from a state that
satisfies it. -/
theorem frun_FInv (es : List FEvent) : ∀ s : FlushSys, FInv s → FInv (frun s es) := by
  induction es with
  | nil => intro s h; exact h
  | cons e es ih => intro s h; exact ih (fstep s e) (fstep_FInv s e h)

/-- Counterexample to C7: there is no single-flush gate.  Two producers
record a metric each and two flush calls perform their atomic drains
(collector.py lines 422-430, under buffer_lock) before either persist step
(line 439, outside any lock) has completed: after the concrete step
sequence record, drain, record, drain the model is in a state with two
flushes simultaneously in flight — their drained batches [0] and [1] are
both awaiting persistence — so two flushes do run concurrently. -/
theorem single_flush_gate_counterexample :
    (frun {} [FEvent.record, FEvent.drain, FEvent.record, FEvent.drain]).inflight =
      [[0], [1]] ∧
    (frun {} [FEvent.record, FEvent.drain, FEvent.record, FEvent.drain]).inflight.length = 2 := by
  decide

/-- C7 as amended: although flushes are not serialized (the persist phase
runs outside the lock and two flushes can be in flight at once, as the
counterexample shows), the drain step is atomic under the buffer lock, so
the batches handed to the persister are pairwise disjoint: after any
interleaving of producer appends, drains and persist completions from the
initial state, no metric identity occurs in two persisted batches (nor
twice anywhere else). -/
theorem persisted_batches_disjoint (es : List FEvent) :
    List.Pairwise List.Disjoint (frun {} es).persisted ∧
    (frun {} es).persisted.flatten.Nodup := by
  have hinv : FInv (frun {} es) := frun_FInv es {} (by constructor <;> simp [fAll])
  have hsub : List.Sublist (frun {} es).persisted.flatten (fAll (frun {} es)) := by
    unfold fAll
    exact (List.sublist_append_right _ _)
  have hnodup : (frun {} es).persisted.flatten.Nodup := hinv.1.sublist hsub
  exact ⟨(List.nodup_flatten.mp hnodup).2, hnodup⟩

/-- Helper: absorbing one finite value preserves the aggregate relation. -/
theorem AggState_update (vs : List FVal) (a : MetricAggregate) (m : Metric)
    (q : ℚ) (hm : m.value = FVal.fin q) (h : AggState vs a) :
    AggState (vs ++ [m.value]) (a.update m) := by
  obtain ⟨hcount, ⟨sq, hsum⟩, havg, hbounds, hlast, hempty, hne, hallfin⟩ := h
  by_cases hvs : vs = []
  · obtain ⟨hmin, hmax, hsum0⟩ := hempty hvs
    subst hvs
    simp only [List.length_nil] at hcount
    refine ⟨?_, ?_, ?_, ?_, ?_, ?_, ?_, ?_⟩
    · simp [MetricAggregate.update, hcount]
    · exact ⟨sq + q, by simp [MetricAggregate.update, hsum, hm, FVal.fadd]⟩
    · simp [MetricAggregate.update]
    · intro v hv
      simp only [List.nil_append, List.mem_singleton] at hv
      subst hv
      simp [MetricAggregate.update, hm, hmin, hmax, FVal.flt, FVal.fle]
    · simp [MetricAggregate.update, hm]
    · simp
    · intro _
      constructor
      · exact ⟨q, by simp [MetricAggregate.update, hm, hmin, FVal.flt]⟩
      · exact ⟨q, by simp [MetricAggregate.update, hm, hmax, FVal.flt]⟩
    · intro v hv
      simp only [List.nil_append, List.mem_singleton] at hv
      subst hv
      simp [hm, FVal.isFin]
  · obtain ⟨⟨mq, hmin⟩, ⟨Mq, hmax⟩⟩ := hne hvs
    refine ⟨?_, ?_, ?_, ?_, ?_, ?_, ?_, ?_⟩
    · simp [MetricAggregate.update, hcount]
    · exact ⟨sq + q, by simp [MetricAggregate.update, hsum, hm, FVal.fadd]⟩
    · simp [MetricAggregate.update]
    · intro v hv
      rcases List.mem_append.mp hv with hv | hv
      · obtain ⟨hlo, hhi⟩ := hbounds v hv
        have hvfin := hallfin v hv
        rcases v with vq | _ | _ | _
        · rw [hmin] at hlo
          rw [hmax] at hhi
          simp only [FVal.fle, decide_eq_true_eq] at hlo hhi
          constructor
          · simp only [MetricAggregate.update, hm, hmin, FVal.flt]
            by_cases hq : q < mq <;>
              simp [hq, FVal.fle] <;> linarith
          · simp only [MetricAggregate.update, hm, hmax, FVal.flt]
            by_cases hq : Mq < q <;>
              simp [hq, FVal.fle] <;> linarith
        · simp [FVal.isFin] at hvfin
        · simp [FVal.isFin] at hvfin
        · simp [FVal.isFin] at hvfin
      · simp only [List.mem_singleton] at hv
        subst hv
        constructor
        · simp only [MetricAggregate.update, hm, hmin, FVal.flt]
          by_cases hq : q < mq <;> simp [hq, FVal.fle] <;> linarith
        · simp only [MetricAggregate.update, hm, hmax, FVal.flt]
          by_cases hq : Mq < q <;> simp [hq, FVal.fle] <;> linarith
    · simp [MetricAggregate.update, hm, List.getLast?_concat]
    · simp [hvs]
    · intro _
      constructor
      · simp only [MetricAggregate.update, hm, hmin, FVal.flt]
        by_cases hq : q < mq <;> simp [hq]
      · simp only [MetricAggregate.update, hm, hmax, FVal.flt]
        by_cases hq : Mq < q <;> simp [hq]
    · intro v hv
      rcases List.mem_append.mp hv with hv | hv
      · exact hallfin v hv
      · simp only [List.mem_singleton] at hv
        subst hv
        simp [hm, FVal.isFin]

/-- Helper: a value is finite exactly when it is a fin constructor. -/
theorem FVal_isFin_iff (v : FVal) : v.isFin = true ↔ ∃ q, v = FVal.fin q := by
  cases v <;> simp [FVal.isFin]

/-- Helper: folding finite-valued metrics into an existing aggregate
preserves the aggregate relation. -/
theorem extendAgg_some (ms : List Metric) : ∀ (a : MetricAggregate) (vs : List FVal),
    AggState vs a → (∀ m ∈ ms, m.value.isFin = true) →
    ∃ b, extendAgg (some a) ms = some b ∧
      AggState (vs ++ ms.map Metric.value) b := by
  induction ms with
  | nil =>
    intro a vs h _
    exact ⟨a, rfl, by simpa using h⟩
  | cons m ms ih =>
    intro a vs h hfin
    have hmfin : m.value.isFin = true := hfin m (List.mem_cons_self m ms)
    obtain ⟨q, hq⟩ := (FVal_isFin_iff m.value).mp hmfin
    have hstep := AggState_update vs a m q hq h
    obtain ⟨b, hb, hstate⟩ := ih (a.update m) (vs ++ [m.value]) hstep
      (fun x hx => hfin x (List.mem_cons_of_mem m hx))
    exact ⟨b, hb, by simpa [List.append_assoc] using hstate⟩

/-- Helper: the empty aggregate relation holds for a fresh aggregate. -/
theorem AggState_initAgg (name : List Char) (t : MetricType) :
    AggState [] (initAgg name t) := by
  refine ⟨rfl, ⟨0, rfl⟩, ?_, ?_, rfl, fun _ => ⟨rfl, rfl, rfl⟩, ?_, ?_⟩
  · simp [initAgg, FVal.fdivNat]
  · intro v hv
    simp at hv
  · intro h
    exact absurd rfl h
  · intro v hv
    simp at hv

/-- Helper: folding a nonempty finite-valued metric list from an absent key
produces an aggregate related to exactly those values. -/
theorem extendAgg_none (ms : List Metric) (hne : ms ≠ [])
    (hfin : ∀ m ∈ ms, m.value.isFin = true) :
    ∃ b, extendAgg none ms = some b ∧ AggState (ms.map Metric.value) b := by
  rcases ms with _ | ⟨m, ms⟩
  · exact absurd rfl hne
  · have hmfin : m.value.isFin = true := hfin m (List.mem_cons_self m ms)
    obtain ⟨q, hq⟩ := (FVal_isFin_iff m.value).mp hmfin
    have h0 := AggState_update [] (initAgg m.name m.metric_type) m q hq
      (AggState_initAgg m.name m.metric_type)
    simp only [List.nil_append] at h0
    obtain ⟨b, hb, hstate⟩ := extendAgg_some ms ((initAgg m.name m.metric_type).update m)
      [m.value] h0 (fun x hx => hfin x (List.mem_cons_of_mem m hx))
    exact ⟨b, hb, by simpa using hstate⟩

/-- Helper: dict lookup after an in-place entry update, at the updated
key. -/
theorem aggFind_updateEntry_self (aggs : AggMap) (key : List Char) (m : Metric) :
    aggFind (updateEntry aggs key m) key =
      (aggFind aggs key).map (fun a => a.update m) := by
  induction aggs with
  | nil => rfl
  | cons e rest ih =>
    rcases e with ⟨k, a⟩
    by_cases h : k = key <;> simp [updateEntry, aggFind, h, ih]

/-- Helper: dict lookup after an in-place entry update, at a different
key. -/
theorem aggFind_updateEntry_other (aggs : AggMap) (key k : List Char) (m : Metric)
    (h : k ≠ key) :
    aggFind (updateEntry aggs key m) k = aggFind aggs k := by
  induction aggs with
  | nil => rfl
  | cons e rest ih =>
    rcases e with ⟨k2, a⟩
    by_cases h2 : k2 = key
    · have hk : ¬k2 = k := fun he => h (he.symm.trans h2)
      simp [updateEntry, aggFind, h2, hk, Ne.symm h]
    · by_cases h3 : k2 = k <;> simp [updateEntry, aggFind, h2, h3, h, ih]

/-- Helper: dict lookup distributes over append. -/
theorem aggFind_append (l1 l2 : AggMap) (k : List Char) :
    aggFind (l1 ++ l2) k =
      (match aggFind l1 k with
        | some a => some a
        | none => aggFind l2 k) := by
  induction l1 with
  | nil => simp [aggFind]
  | cons e rest ih =>
    rcases e with ⟨k2, a⟩
    by_cases h : k2 = k <;> simp [aggFind, h, ih]

/-- Helper: _update_aggregate at the metric's own key performs a
get-or-create followed by update. -/
theorem aggFind_update_aggregate_self (aggs : AggMap) (m : Metric) :
    aggFind (update_aggregate aggs m) (aggKey m) =
      some ((match aggFind aggs (aggKey m) with
             | some a => a
             | none => initAgg m.name m.metric_type).update m) := by
  unfold update_aggregate
  rcases hfound : aggFind aggs (aggKey m) with _ | a
  · simp only [hfound, Option.isSome_none, Bool.false_eq_true, if_false]
    rw [aggFind_updateEntry_self, aggFind_append, hfound]
    simp [aggFind]
  · simp only [hfound, Option.isSome_some, if_true]
    rw [aggFind_updateEntry_self, hfound]
    rfl

/-- Helper: _update_aggregate leaves every other key's entry alone. -/
theorem aggFind_update_aggregate_other (aggs : AggMap) (m : Metric)
    (k : List Char) (h : k ≠ aggKey m) :
    aggFind (update_aggregate aggs m) k = aggFind aggs k := by
  unfold update_aggregate
  rcases hfound : aggFind aggs (aggKey m) with _ | a
  · simp only [hfound, Option.isSome_none, Bool.false_eq_true, if_false]
    rw [aggFind_updateEntry_other _ _ _ _ h, aggFind_append]
    rcases h2 : aggFind aggs k with _ | b
    · simp [aggFind, Ne.symm h]
    · simp
  · simp only [hfound, Option.isSome_some, if_true]
    exact aggFind_updateEntry_other _ _ _ _ h

/-- Helper: flush never touches the aggregates or the aggregation flag. -/
theorem flush_aggregates (st : CollectorState) (f p : Bool) :
    (flush st f p).1.aggregates = st.aggregates ∧
    (flush st f p).1.enable_aggregation = st.enable_aggregation := by
  unfold flush
  by_cases h : st.metrics_buffer = []
  · by_cases hf : f = false <;> by_cases hp : p <;> simp [h, hf, hp]
  · by_cases hp : p <;> simp [h, hp]

/-- Helper: a record_metric call updates the aggregates dict with the
created metric exactly when it returns normally and aggregation is
enabled, and otherwise leaves the dict alone; the aggregation flag is
never changed. -/
theorem record_aggregates (st : CollectorState) (n : List Char) (v : PyValue)
    (t : MetricType) (p : Bool) (he : st.enable_aggregation = true) :
    (record_metric st n v t p).1.aggregates =
      (if (record_metric st n v t p).2 = RecordOutcome.ok
        then update_aggregate st.aggregates (mkMetric n v t)
        else st.aggregates) ∧
    (record_metric st n v t p).1.enable_aggregation = true := by
  unfold record_metric
  by_cases hv : v.isNumeric = false
  · simp [hv, he]
  · simp only [hv, if_false]
    by_cases hn : n = [] ∨ pyStrip n = []
    · simp [hn, he]
    · simp only [hn, if_false]
      by_cases ho : st.max_buffer_size ≤ st.metrics_buffer.length
      · simp only [if_pos ho]
        have hfl := flush_aggregates { st with stats := { st.stats with
            buffer_overflow := st.stats.buffer_overflow + 1 } } true p
        rcases hE : flush { st with stats := { st.stats with
            buffer_overflow := st.stats.buffer_overflow + 1 } } true p with ⟨st2, r⟩
        rw [hE] at hfl
        cases r <;> simp_all [appendMetric]
      · simp [ho, appendMetric, he]

/-- Helper: no event changes the aggregation flag. -/
theorem step_enable (st : CollectorState) (e : Event)
    (he : st.enable_aggregation = true) :
    (step st e).enable_aggregation = true := by
  cases e with
  | flushEv f p => rw [step, (flush_aggregates st f p).2]; exact he
  | record n v t p => exact (record_aggregates st n v t p he).2

/-- Helper: one fold step of extendAgg, seeded by get-or-create. -/
theorem extendAgg_cons (o : Option MetricAggregate) (m : Metric) (ms : List Metric) :
    extendAgg o (m :: ms) =
      extendAgg (some ((match o with
        | some a => a
        | none => initAgg m.name m.metric_type).update m)) ms := by
  cases o <;> rfl

/-- Helper: along any trace, the aggregate stored at a key is the extendAgg
fold of the accepted metrics matching that key over the starting entry. -/
theorem run_aggFind (es : List Event) : ∀ (st : CollectorState),
    st.enable_aggregation = true → ∀ key,
    aggFind (run st es).aggregates key =
      extendAgg (aggFind st.aggregates key)
        ((acceptedOf st es).filter (fun m => aggKey m = key)) := by
  induction es with
  | nil =>
    intro st _ key
    simp [run, acceptedOf, extendAgg]
  | cons e es ih =>
    intro st he key
    have hacc : acceptedOf st (e :: es) =
        acceptedOf st [e] ++ acceptedOf (step st e) es := by
      cases e <;> simp [acceptedOf]
    have ihs := ih (step st e) (step_enable st e he) key
    rw [show run st (e :: es) = run (step st e) es from rfl, ihs, hacc,
      List.filter_append]
    cases e with
    | flushEv f p =>
      simp [acceptedOf, step, (flush_aggregates st f p).1]
    | record n v t p =>
      have hrec := (record_aggregates st n v t p he).1
      by_cases hok : (record_metric st n v t p).2 = RecordOutcome.ok
      · rw [if_pos hok] at hrec
        have hA1 : acceptedOf st [Event.record n v t p] = [mkMetric n v t] := by
          simp [acceptedOf, hok]
        rw [hA1]
        by_cases hkey : aggKey (mkMetric n v t) = key
        · rw [show step st (Event.record n v t p) = (record_metric st n v t p).1 from rfl,
            hrec]
          rw [← hkey, aggFind_update_aggregate_self]
          simp only [List.filter_cons, hkey, decide_True, if_true,
            List.filter_nil, List.singleton_append]
          rw [extendAgg_cons]
        · rw [show step st (Event.record n v t p) = (record_metric st n v t p).1 from rfl,
            hrec]
          rw [aggFind_update_aggregate_other _ _ _ (fun h => hkey h.symm)]
          simp only [List.filter_cons, hkey]
          simp [hkey]
      · rw [if_neg hok] at hrec
        have hA1 : acceptedOf st [Event.record n v t p] = [] := by
          simp [acceptedOf, hok]
        rw [hA1]
        rw [show step st (Event.record n v t p) = (record_metric st n v t p).1 from rfl,
          hrec]
        simp

/-- Counterexample to C6: NaN is accepted by record_metric (there is no
finiteness check), and a NaN-valued accepted metric breaks the claimed
aggregate invariants under Python float semantics: after recording NaN for
"x" the aggregate at key "x:gauge" has min = inf and last_value = NaN, so
min <= last observed value is False, and avg == sum/count is False because
NaN compares unequal to everything. -/
theorem aggregate_correct_counterexample :
    (record_metric (initState 10 true) (("x").data) PyValue.nan
        MetricType.gauge true).2 = RecordOutcome.ok ∧
    aggFind (record_metric (initState 10 true) (("x").data) PyValue.nan
        MetricType.gauge true).1.aggregates (("x:gauge").data) =
      some { name := ("x").data, metric_type := MetricType.gauge, count := 1,
             sum := FVal.nan, min := FVal.inf, max := FVal.neginf,
             avg := FVal.nan, last_value := some FVal.nan } ∧
    FVal.fle FVal.inf FVal.nan = false ∧
    FVal.feq FVal.nan (FVal.nan.fdivNat 1) = false := by
  decide

/-- C6 as amended: for every trace whose accepted metrics all carry finite
values, every aggregate present at a key satisfies, after every update:
count equals the number of accepted metrics with that key, avg == sum/count
(Python float equality), min <= v <= max for every observed value v of that
key, and last_value is the most recently recorded matching value.  (When a
non-finite value such as NaN is accepted — possible because validation does
not check finiteness, see the counterexample — the min/max bounds and the
avg equation fail under float comparison semantics.) -/
theorem aggregate_correct_amended (maxB : Nat) (es : List Event)
    (key : List Char) (agg : MetricAggregate)
    (hfin : ∀ m ∈ acceptedOf (initState maxB true) es, m.value.isFin = true)
    (hagg : aggFind (run (initState maxB true) es).aggregates key = some agg) :
    agg.count = ((acceptedOf (initState maxB true) es).filter
      (fun m => aggKey m = key)).length ∧
    FVal.feq agg.avg (agg.sum.fdivNat agg.count) = true ∧
    (∀ m ∈ (acceptedOf (initState maxB true) es).filter (fun m => aggKey m = key),
      agg.min.fle m.value = true ∧ m.value.fle agg.max = true) ∧
    agg.last_value = (((acceptedOf (initState maxB true) es).filter
      (fun m => aggKey m = key)).map Metric.value).getLast? := by
  have h := run_aggFind es (initState maxB true) rfl key
  rw [hagg] at h
  have hinit : aggFind (initState maxB true).aggregates key = none := rfl
  rw [hinit] at h
  have hfin2 : ∀ m ∈ (acceptedOf (initState maxB true) es).filter
      (fun m => aggKey m = key), m.value.isFin = true :=
    fun m hm => hfin m (List.mem_of_mem_filter hm)
  have hne : (acceptedOf (initState maxB true) es).filter
      (fun m => aggKey m = key) ≠ [] := by
    intro he
    rw [he] at h
    simp [extendAgg] at h
  obtain ⟨b, hb, hstate⟩ := extendAgg_none _ hne hfin2
  rw [hb] at h
  have hab : agg = b := Option.some.inj h
  subst hab
  obtain ⟨hc, ⟨q, hs⟩, hv, hbnd, hl, _, _, _⟩ := hstate
  refine ⟨?_, ?_, ?_, hl⟩
  · rw [hc, List.length_map]
  · rw [hv, hs]
    simp [FVal.fdivNat, FVal.feq]
  · intro m hm
    exact hbnd m.value (List.mem_map_of_mem Metric.value hm)

/-- Witness for C6's amended theorem, realizing the spec's concrete
scenario: recording values 1, 2, 3 for name "x" of type GAUGE yields the
aggregate count=3, sum=6, min=1, max=3, avg=2, last_value=3 at key
"x:gauge", and the amended invariants hold for it. -/
theorem aggregate_correct_amended_witness :
    (∀ m ∈ acceptedOf (initState 10 true)
        [Event.record (("x").data) (PyValue.int 1) MetricType.gauge true,
         Event.record (("x").data) (PyValue.int 2) MetricType.gauge true,
         Event.record (("x").data) (PyValue.int 3) MetricType.gauge true],
      m.value.isFin = true) ∧
    aggFind (run (initState 10 true)
        [Event.record (("x").data) (PyValue.int 1) MetricType.gauge true,
         Event.record (("x").data) (PyValue.int 2) MetricType.gauge true,
         Event.record (("x").data) (PyValue.int 3) MetricType.gauge true]).aggregates
      (("x:gauge").data) =
      some { name := ("x").data, metric_type := MetricType.gauge, count := 3,
             sum := FVal.fin 6, min := FVal.fin 1, max := FVal.fin 3,
             avg := FVal.fin 2, last_value := some (FVal.fin 3) } ∧
    (({ name := ("x").data, metric_type := MetricType.gauge, count := 3,
        sum := FVal.fin 6, min := FVal.fin 1, max := FVal.fin 3,
        avg := FVal.fin 2, last_value := some (FVal.fin 3) } :
          MetricAggregate).count =
      ((acceptedOf (initState 10 true)
        [Event.record (("x").data) (PyValue.int 1) MetricType.gauge true,
         Event.record (("x").data) (PyValue.int 2) MetricType.gauge true,
         Event.record (("x").data) (PyValue.int 3) MetricType.gauge true]).filter
        (fun m => aggKey m = ("x:gauge").data)).length ∧
      FVal.feq (FVal.fin 2) ((FVal.fin 6).fdivNat 3) = true ∧
      (∀ m ∈ (acceptedOf (initState 10 true)
        [Event.record (("x").data) (PyValue.int 1) MetricType.gauge true,
         Event.record (("x").data) (PyValue.int 2) MetricType.gauge true,
         Event.record (("x").data) (PyValue.int 3) MetricType.gauge true]).filter
        (fun m => aggKey m = ("x:gauge").data),
        (FVal.fin 1).fle m.value = true ∧ m.value.fle (FVal.fin 3) = true) ∧
      some (FVal.fin 3) = (((acceptedOf (initState 10 true)
        [Event.record (("x").data) (PyValue.int 1) MetricType.gauge true,
         Event.record (("x").data) (PyValue.int 2) MetricType.gauge true,
         Event.record (("x").data) (PyValue.int 3) MetricType.gauge true]).filter
        (fun m => aggKey m = ("x:gauge").data)).map Metric.value).getLast?) := by
  have hagg : aggFind (run (initState 10 true)
      [Event.record (("x").data) (PyValue.int 1) MetricType.gauge true,
       Event.record (("x").data) (PyValue.int 2) MetricType.gauge true,
       Event.record (("x").data) (PyValue.int 3) MetricType.gauge true]).aggregates
      (("x:gauge").data) =
      some { name := ("x").data, metric_type := MetricType.gauge, count := 3,
             sum := FVal.fin 6, min := FVal.fin 1, max := FVal.fin 3,
             avg := FVal.fin 2, last_value := some (FVal.fin 3) } := by
    norm_num +decide [run, step, record_metric, flush, appendMetric, update_aggregate,
      updateEntry, aggFind, aggKey, initAgg, MetricAggregate.update, mkMetric,
      initState, PyValue.toFloat, PyValue.isNumeric, MetricType.value, pyStrip,
      FVal.fadd, FVal.flt, FVal.fdivNat, List.dropWhile, Char.isWhitespace]
  exact ⟨by decide, hagg,
    aggregate_correct_amended 10
      [Event.record (("x").data) (PyValue.int 1) MetricType.gauge true,
       Event.record (("x").data) (PyValue.int 2) MetricType.gauge true,
       Event.record (("x").data) (PyValue.int 3) MetricType.gauge true]
      (("x:gauge").data)
      { name := ("x").data, metric_type := MetricType.gauge, count := 3,
        sum := FVal.fin 6, min := FVal.fin 1, max := FVal.fin 3,
        avg := FVal.fin 2, last_value := some (FVal.fin 3) }
      (by decide) hagg⟩

end ETLMetrics
